import Mathlib

/-!
Verification of the request ingestion and response pipeline of a minimal
MPEG-DASH HTTPS file server (`src/server/mod.rs`).

Bytes are modelled as `Nat` (values of `u8`), byte buffers as `List Nat`,
and decoded Rust strings as lists of Unicode scalar values (`List Nat`).
The TLS stream is modelled as a list of read events; the filesystem as a
function from paths (scalar-value lists) to optional file contents.
The observable behaviour of a connection is the list of bytes written back,
whether the stream was flushed, and whether the handler aborted (an
`unwrap()` panic in the source).
-/

/-- `MAX_REQUEST_SIZE` from `src/server/mod.rs`. -/
def MAX_REQUEST_SIZE : Nat := 4096

/-- The HTTP header terminator bytes `\r\n\r\n`. -/
def crlfcrlf : List Nat := [13, 10, 13, 10]

/-- The two bytes `\r\n`. -/
def crlf : List Nat := [13, 10]

/-- Byte list of an ASCII string literal. -/
def ascii (s : String) : List Nat := s.toList.map Char.toNat

/-- The scan of `is_end_of_header`: repeatedly test whether the buffer ends
with `\r\n\r\n` and drop the last byte, exactly as the Rust `while` loop
does.  The fuel argument is the initial buffer length, which bounds the
number of iterations of the source loop. -/
def scanAux : Nat → List Nat → Bool
  | 0, _ => false
  | fuel + 1, l =>
    if l.isEmpty then false
    else crlfcrlf.isSuffixOf l || scanAux fuel l.dropLast

/-- `is_end_of_header` from `src/server/mod.rs`: length guard, then the
drop-last scan over every prefix of the buffer. -/
def is_end_of_header (buffer : List Nat) : Bool :=
  if buffer.length < 4 then false
  else scanAux buffer.length buffer

/-- Rust `char::is_whitespace` (the Unicode `White_Space` property), on
scalar values. -/
def isWS (c : Nat) : Bool :=
  (9 ≤ c && c ≤ 13) || c == 32 || c == 0x85 || c == 0xA0 || c == 0x1680 ||
  (0x2000 ≤ c && c ≤ 0x200A) || c == 0x2028 || c == 0x2029 ||
  c == 0x202F || c == 0x205F || c == 0x3000

/-- The Unicode replacement character U+FFFD produced by lossy decoding. -/
def repl : Nat := 0xFFFD

/-- Is the byte a UTF-8 continuation byte (`0x80..=0xBF`)? -/
def isCont (b : Nat) : Bool := 0x80 ≤ b && b ≤ 0xBF

/-- Valid second byte of a three-byte UTF-8 sequence with lead `b0`
(Rust `core::str::validations`). -/
def valid3Second (b0 b1 : Nat) : Bool :=
  if b0 == 0xE0 then 0xA0 ≤ b1 && b1 ≤ 0xBF
  else if b0 == 0xED then 0x80 ≤ b1 && b1 ≤ 0x9F
  else isCont b1

/-- Valid second byte of a four-byte UTF-8 sequence with lead `b0`. -/
def valid4Second (b0 b1 : Nat) : Bool :=
  if b0 == 0xF0 then 0x90 ≤ b1 && b1 ≤ 0xBF
  else if b0 == 0xF4 then 0x80 ≤ b1 && b1 ≤ 0x8F
  else isCont b1

/-- Rust `String::from_utf8_lossy`: decode UTF-8, replacing each maximal
invalid subpart with one U+FFFD, resuming at the first byte that broke the
sequence.  Output is the list of Unicode scalar values of the string.  The
fuel argument (instantiated with the byte count, an upper bound on the
number of decoded characters) only forces termination; every step consumes
at least one byte. -/
def utf8LossyAux : Nat → List Nat → List Nat
  | 0, _ => []
  | _ + 1, [] => []
  | fuel + 1, b0 :: rest =>
    if b0 < 0x80 then b0 :: utf8LossyAux fuel rest
    else if b0 < 0xC2 then repl :: utf8LossyAux fuel rest
    else if b0 ≤ 0xDF then
      match rest with
      | [] => [repl]
      | b1 :: rest1 =>
        if isCont b1 then
          ((b0 - 0xC0) * 64 + (b1 - 0x80)) :: utf8LossyAux fuel rest1
        else repl :: utf8LossyAux fuel rest
    else if b0 ≤ 0xEF then
      match rest with
      | [] => [repl]
      | b1 :: rest1 =>
        if valid3Second b0 b1 then
          match rest1 with
          | [] => [repl]
          | b2 :: rest2 =>
            if isCont b2 then
              ((b0 - 0xE0) * 4096 + (b1 - 0x80) * 64 + (b2 - 0x80)) :: utf8LossyAux fuel rest2
            else repl :: utf8LossyAux fuel rest1
        else repl :: utf8LossyAux fuel rest
    else if b0 ≤ 0xF4 then
      match rest with
      | [] => [repl]
      | b1 :: rest1 =>
        if valid4Second b0 b1 then
          match rest1 with
          | [] => [repl]
          | b2 :: rest2 =>
            if isCont b2 then
              match rest2 with
              | [] => [repl]
              | b3 :: rest3 =>
                if isCont b3 then
                  ((b0 - 0xF0) * 262144 + (b1 - 0x80) * 4096 +
                    (b2 - 0x80) * 64 + (b3 - 0x80)) :: utf8LossyAux fuel rest3
                else repl :: utf8LossyAux fuel rest2
            else repl :: utf8LossyAux fuel rest1
        else repl :: utf8LossyAux fuel rest
    else repl :: utf8LossyAux fuel rest

/-- Rust `String::from_utf8_lossy` on a byte buffer. -/
def utf8Lossy (l : List Nat) : List Nat := utf8LossyAux l.length l

/-- Strip one trailing `\r`, as Rust `str::lines` does after removing a
`\n`. -/
def stripTrailingCR (l : List Nat) : List Nat :=
  if l.getLast? = some 13 then l.dropLast else l

/-- `request_full.lines().next()`: `none` on the empty string; otherwise the
text before the first `\n` with one trailing `\r` stripped, or the whole
string unchanged when it contains no `\n`. -/
def firstLine (s : List Nat) : Option (List Nat) :=
  match s with
  | [] => none
  | _ :: _ =>
    if s.contains 10 then some (stripTrailingCR (s.takeWhile (fun c => c != 10)))
    else some s

/-- One step of Rust `str::split_whitespace`: skip leading whitespace, then
return the next token together with the remainder after it. -/
def nextToken (s : List Nat) : Option (List Nat × List Nat) :=
  let s2 := s.dropWhile isWS
  match s2 with
  | [] => none
  | _ :: _ =>
    some (s2.takeWhile (fun c => !isWS c), s2.dropWhile (fun c => !isWS c))

/-- Number of bytes of the UTF-8 encoding of one scalar value; Rust
`str::len` is the sum of these. -/
def charUtf8Len (c : Nat) : Nat :=
  if c < 0x80 then 1 else if c < 0x800 then 2 else if c < 0x10000 then 3 else 4

/-- Rust `str::len` (byte length) of a decoded string. -/
def strByteLen (s : List Nat) : Nat := (s.map charUtf8Len).sum

/-- Decimal digits (as ASCII bytes) of a `usize`, as produced by
`format!("{}", n)`. -/
def natDecimalBytes (n : Nat) : List Nat := (Nat.toDigits 10 n).map Char.toNat

/-- Outcome of the request-line processing in `handle_client` after the read
loop has fallen through with a buffer.  The `unwrap()` calls of the source
panic on `None`; each panic point is a distinct constructor. -/
inductive ParseResult where
  /-- `lines().next().unwrap()` or the first `request_parts.next().unwrap()`
  hit `None`: no first line, or no first token.  This abort is the outcome
  §4.4 of the specification calls MalformedRequest. -/
  | malformedRequest
  /-- The first token is not `GET`. -/
  | methodNotAllowed
  /-- The second `request_parts.next().unwrap()` hit `None`: the
  request-target is absent, and the handler panics. -/
  | targetMissing
  /-- The target has byte length at most 1 (`/` alone). -/
  | notFound
  /-- `&path[1..]` is not on a character boundary, so the slice panics. -/
  | charBoundaryPanic
  /-- The target with its leading byte stripped, ready for `fs::read`. -/
  | fileTarget (rel : List Nat)

deriving instance DecidableEq for ParseResult

/-- The request-line parse of `handle_client` (`src/server/mod.rs`,
lines 111-133), on the lossily decoded buffer. -/
def parse_request (s : List Nat) : ParseResult :=
  match firstLine s with
  | none => .malformedRequest
  | some line =>
    match nextToken line with
    | none => .malformedRequest
    | some (tok, r) =>
      if tok ≠ ascii "GET" then .methodNotAllowed
      else
        match nextToken r with
        | none => .targetMissing
        | some (path, _) =>
          if strByteLen path ≤ 1 then .notFound
          else if charUtf8Len (path.headD 0) = 1 then .fileTarget (path.drop 1)
          else .charBoundaryPanic

/-- Wire-observable result of one connection: the bytes written back,
whether the stream was flushed, and whether the handler panicked. -/
structure WireOutput where
  written : List Nat
  flushed : Bool
  panicked : Bool

deriving instance DecidableEq for WireOutput

/-- `response_404`. -/
def out404 : WireOutput := ⟨ascii "HTTP/1.1 404 NOT FOUND\r\n\r\n", false, false⟩

/-- The 405 write in `handle_client`. -/
def out405 : WireOutput := ⟨ascii "HTTP/1.1 405 Method Not Allowed\r\n\r\n", false, false⟩

/-- `response_408`. -/
def out408 : WireOutput := ⟨ascii "HTTP/1.1 408 REQUEST TIMEOUT\r\n\r\n", false, false⟩

/-- `response_413`. -/
def out413 : WireOutput := ⟨ascii "HTTP/1.1 413 PAYLOAD TOO LARGE\r\n\r\n", false, false⟩

/-- A handler abort before any write: nothing on the wire, panicked. -/
def outPanic : WireOutput := ⟨[], false, true⟩

/-- A silent drop: nothing on the wire, no panic. -/
def outSilent : WireOutput := ⟨[], false, false⟩

/-- Map a parse outcome to the bytes written, per `handle_client`
(lines 119-154): 405 or 404 status lines, a panic, or the 200 response
built by the `format!` string followed by the raw file bytes and a flush. -/
def respondWith (fs : List Nat → Option (List Nat)) (origin : List Nat) :
    ParseResult → WireOutput
  | .malformedRequest => outPanic
  | .methodNotAllowed => out405
  | .targetMissing => outPanic
  | .notFound => out404
  | .charBoundaryPanic => outPanic
  | .fileTarget rel =>
    match fs rel with
    | none => out404
    | some data =>
      let ftype :=
        if (ascii ".mpd").isSuffixOf rel then ascii "application/dash+xml"
        else ascii "application/octet-stream"
      ⟨ascii "HTTP/1.1 200 OK\r\nAccess-Control-Allow-Origin: " ++ origin ++
        ascii "\r\nContent-type: " ++ ftype ++
        ascii "\r\nContent-Length: " ++ natDecimalBytes data.length ++
        ascii "\r\n\r\n" ++ data, true, false⟩

/-- Everything `handle_client` does once the read loop has fallen through
with accumulator `buf`. -/
def processRequest (fs : List Nat → Option (List Nat)) (origin : List Nat)
    (buf : List Nat) : WireOutput :=
  respondWith fs origin (parse_request (utf8Lossy buf))

/-- One result of `stream.ssl_read` into the scratch buffer. -/
inductive ReadEvent where
  /-- `Ok(data_len)` with the bytes read (possibly none). -/
  | chunk (data : List Nat)
  /-- `Err(e)` with `is_ssl_error(e)` true. -/
  | sslFault
  /-- `Err(e)` with `is_ssl_error(e)` false (e.g. a read timeout). -/
  | ioFault

deriving instance DecidableEq for ReadEvent

/-- How the read loop of `handle_client` ends. -/
inductive LoopExit where
  /-- A `break`: zero-byte read or header terminator seen; execution falls
  through to the parse with the accumulated buffer. -/
  | fallthrough (buf : List Nat)
  /-- `response_413(stream); return`. -/
  | ret413
  /-- `response_408(stream); return`. -/
  | ret408
  /-- An SSL-layer error: `return` with nothing written. -/
  | retSilent
  /-- Model artifact: the event list ran out while the loop would issue
  another read; `buf` is the accumulator at that point. -/
  | stuck (buf : List Nat)

deriving instance DecidableEq for LoopExit

/-- The read loop of `handle_client` (lines 76-108).  Returns how the loop
ends together with the trace of accumulator lengths observed right after
each `extend_from_slice`. -/
def readLoop (buf : List Nat) : List ReadEvent → LoopExit × List Nat
  | [] => (.stuck buf, [])
  | .chunk data :: rest =>
    let buf2 := buf ++ data
    if data.length = 0 then (.fallthrough buf2, [buf2.length])
    else if is_end_of_header buf2 then (.fallthrough buf2, [buf2.length])
    else if MAX_REQUEST_SIZE ≤ buf2.length then (.ret413, [buf2.length])
    else ((readLoop buf2 rest).1, buf2.length :: (readLoop buf2 rest).2)
  | .sslFault :: _ => (.retSilent, [])
  | .ioFault :: _ => (.ret408, [])

/-- `handle_client`: run the read loop from an empty accumulator, then map
its exit to the wire-observable output.  `none` when the event list is too
short to determine the outcome. -/
def handle_client (fs : List Nat → Option (List Nat)) (origin : List Nat)
    (reads : List ReadEvent) : Option WireOutput :=
  match (readLoop [] reads).1 with
  | .fallthrough buf => some (processRequest fs origin buf)
  | .ret413 => some out413
  | .ret408 => some out408
  | .retSilent => some outSilent
  | .stuck _ => none

/-- The 200 response as §4.5 of the specification words it: status line,
three headers each terminated by `\r\n`, a blank line, then the raw file
bytes. -/
def specResponse200 (origin ftype data : List Nat) : List Nat :=
  ascii "HTTP/1.1 200 OK" ++ crlf ++
  ascii "Access-Control-Allow-Origin: " ++ origin ++ crlf ++
  ascii "Content-type: " ++ ftype ++ crlf ++
  ascii "Content-Length: " ++ natDecimalBytes data.length ++ crlf ++
  crlf ++ data

/-! ### Helper lemmas -/

theorem scanAux_true_iff :
    ∀ (fuel : Nat) (l : List Nat), l.length ≤ fuel →
    (scanAux fuel l = true ↔ ∃ p, p <+: l ∧ crlfcrlf <:+ p) := by
  intro fuel
  induction fuel with
  | zero =>
    intro l hl
    have : l = [] := List.length_eq_zero.mp (Nat.le_zero.mp hl)
    subst this
    simp only [scanAux]
    constructor
    · intro h; cases h
    · rintro ⟨p, hp, s, hs⟩
      have hp' : p = [] := List.eq_nil_of_prefix_nil hp
      subst hp'
      have := List.append_eq_nil.mp hs
      simp [crlfcrlf] at this
  | succ fuel ih =>
    intro l hl
    cases l with
    | nil =>
      simp only [scanAux, List.isEmpty_nil, if_true]
      constructor
      · intro h; cases h
      · rintro ⟨p, hp, s, hs⟩
        have hp' : p = [] := List.eq_nil_of_prefix_nil hp
        subst hp'
        have := List.append_eq_nil.mp hs
        simp [crlfcrlf] at this
    | cons a as =>
      have hne : (a :: as : List Nat) ≠ [] := by simp
      have hdl : (a :: as).dropLast.length ≤ fuel := by
        simp only [List.length_dropLast, List.length_cons] at *
        omega
      simp only [scanAux, List.isEmpty_cons, if_false, Bool.false_eq_true, Bool.or_eq_true]
      constructor
      · intro h
        rcases h with h | h
        · exact ⟨a :: as, ⟨[], by simp⟩, List.isSuffixOf_iff_suffix.mp h⟩
        · rcases (ih _ hdl).mp h with ⟨p, hp, hs⟩
          exact ⟨p, hp.trans ( List.dropLast_prefix _), hs⟩
      · rintro ⟨p, hp, hs⟩
        rcases hp with ⟨t, ht⟩
        cases t with
        | nil =>
          left
          rw [List.append_nil] at ht
          subst ht
          exact List.isSuffixOf_iff_suffix.mpr hs
        | cons b bs =>
          right
          refine (ih _ hdl).mpr ⟨p, ?_, hs⟩
          have : (p ++ b :: bs).dropLast = p ++ (b :: bs).dropLast :=
            List.dropLast_append_of_ne_nil _ (by simp)
          rw [← ht, this]
          exact ⟨(b :: bs).dropLast, rfl⟩

theorem contains_mid_iff (c l : List Nat) :
    (∃ p, p <+: l ∧ c <:+ p) ↔ c <:+: l := by
  constructor
  · rintro ⟨p, ⟨t, ht⟩, ⟨s, hs⟩⟩
    exact ⟨s, t, by rw [← ht, ← hs, List.append_assoc]⟩
  · rintro ⟨s, t, h⟩
    exact ⟨s ++ c, ⟨t, by rw [← h, List.append_assoc]⟩, ⟨s, rfl⟩⟩

/-- `is_end_of_header` detects exactly the presence of `\r\n\r\n` as a
contiguous subsequence. -/
theorem is_end_of_header_contains_iff (b : List Nat) :
    is_end_of_header b = true ↔ crlfcrlf <:+: b := by
  unfold is_end_of_header
  by_cases hlen : b.length < 4
  · simp only [hlen, if_true]
    constructor
    · intro h; cases h
    · rintro ⟨s, t, h⟩
      have := congrArg List.length h
      simp [crlfcrlf, List.length_append] at this
      omega
  · simp only [hlen, if_false]
    rw [scanAux_true_iff b.length b (Nat.le_refl _)]
    exact contains_mid_iff crlfcrlf b

theorem is_end_of_header_of_ends_with (b : List Nat) (h : crlfcrlf <:+ b) :
    is_end_of_header b = true := by
  rcases h with ⟨s, hs⟩
  exact (is_end_of_header_contains_iff b).mpr ⟨s, [], by rw [← hs]; simp⟩

theorem is_end_of_header_false_of_no_cr (b : List Nat) (h : 13 ∉ b) :
    is_end_of_header b = false := by
  cases hv : is_end_of_header b with
  | false => rfl
  | true =>
    exfalso
    rcases (is_end_of_header_contains_iff b).mp hv with ⟨s, t, hst⟩
    apply h
    rw [← hst]
    simp [crlfcrlf]

theorem is_end_of_header_replicate_A (n : Nat) :
    is_end_of_header (List.replicate n 65) = false := by
  apply is_end_of_header_false_of_no_cr
  intro h
  have := List.eq_of_mem_replicate h
  omega

/-- Running the loop over more events after it is still mid-flight is the
same as continuing from the accumulated buffer. -/
theorem readLoop_stuck_append :
    ∀ (pre : List ReadEvent) (buf0 buf : List Nat) (evs : List ReadEvent),
    (readLoop buf0 pre).1 = LoopExit.stuck buf →
    readLoop buf0 (pre ++ evs) =
      ((readLoop buf evs).1, (readLoop buf0 pre).2 ++ (readLoop buf evs).2) := by
  intro pre
  induction pre with
  | nil =>
    intro buf0 buf evs h
    simp only [readLoop, LoopExit.stuck.injEq] at h
    subst h
    simp [readLoop]
  | cons ev pre' ih =>
    intro buf0 buf evs h
    cases ev with
    | chunk data =>
      by_cases h0 : data.length = 0
      · simp only [readLoop, if_pos h0] at h
        simp at h
      · by_cases h1 : is_end_of_header (buf0 ++ data) = true
        · simp only [readLoop, if_neg h0, if_pos h1] at h
          simp at h
        · by_cases h2 : MAX_REQUEST_SIZE ≤ (buf0 ++ data).length
          · simp only [readLoop, if_neg h0, if_neg h1, if_pos h2] at h
            simp at h
          · have h' : (readLoop (buf0 ++ data) pre').1 = LoopExit.stuck buf := by
              simp only [readLoop, if_neg h0, if_neg h1, if_neg h2] at h
              exact h
            have hrec := ih (buf0 ++ data) buf evs h'
            simp only [List.cons_append, readLoop, if_neg h0, if_neg h1, if_neg h2,
              List.append_eq]
            rw [hrec]
    | sslFault => simp [readLoop] at h
    | ioFault => simp [readLoop] at h

/-- If the loop is still mid-flight, its accumulator is below the size cap
(the loop would otherwise already have returned). -/
theorem readLoop_stuck_short :
    ∀ (evs : List ReadEvent) (buf : List Nat), buf.length < MAX_REQUEST_SIZE →
    ∀ b2, (readLoop buf evs).1 = LoopExit.stuck b2 → b2.length < MAX_REQUEST_SIZE := by
  intro evs
  induction evs with
  | nil =>
    intro buf hb b2 h
    simp only [readLoop, LoopExit.stuck.injEq] at h
    subst h
    exact hb
  | cons ev evs' ih =>
    intro buf hb b2 h
    cases ev with
    | chunk data =>
      by_cases h0 : data.length = 0
      · simp only [readLoop, if_pos h0] at h
        simp at h
      · by_cases h1 : is_end_of_header (buf ++ data) = true
        · simp only [readLoop, if_neg h0, if_pos h1] at h
          simp at h
        · by_cases h2 : MAX_REQUEST_SIZE ≤ (buf ++ data).length
          · simp only [readLoop, if_neg h0, if_neg h1, if_pos h2] at h
            simp at h
          · have h' : (readLoop (buf ++ data) evs').1 = LoopExit.stuck b2 := by
              simp only [readLoop, if_neg h0, if_neg h1, if_neg h2] at h
              exact h
            exact ih (buf ++ data) (Nat.lt_of_not_le h2) b2 h'
    | sslFault => simp [readLoop] at h
    | ioFault => simp [readLoop] at h

/-- Every accumulator length observed right after an append stays below
twice the size cap, provided each read returns at most `MAX_REQUEST_SIZE`
bytes (the scratch buffer size). -/
theorem readLoop_trace_bound :
    ∀ (evs : List ReadEvent) (buf : List Nat), buf.length < MAX_REQUEST_SIZE →
    (∀ d, ReadEvent.chunk d ∈ evs → d.length ≤ MAX_REQUEST_SIZE) →
    ∀ n ∈ (readLoop buf evs).2, n < 2 * MAX_REQUEST_SIZE := by
  intro evs
  induction evs with
  | nil =>
    intro buf _ _ n hn
    simp [readLoop] at hn
  | cons ev evs' ih =>
    intro buf hb hc n hn
    cases ev with
    | chunk data =>
      have hd : data.length ≤ MAX_REQUEST_SIZE := hc data (by simp)
      have hlen : (buf ++ data).length < 2 * MAX_REQUEST_SIZE := by
        rw [List.length_append]
        omega
      by_cases h0 : data.length = 0
      · simp only [readLoop, if_pos h0, List.mem_singleton] at hn
        omega
      · by_cases h1 : is_end_of_header (buf ++ data) = true
        · simp only [readLoop, if_neg h0, if_pos h1, List.mem_singleton] at hn
          omega
        · by_cases h2 : MAX_REQUEST_SIZE ≤ (buf ++ data).length
          · simp only [readLoop, if_neg h0, if_neg h1, if_pos h2, List.mem_singleton] at hn
            omega
          · simp only [readLoop, if_neg h0, if_neg h1, if_neg h2, List.mem_cons] at hn
            rcases hn with hn | hn
            · omega
            · exact ih (buf ++ data) (Nat.lt_of_not_le h2)
                (fun d hd' => hc d (List.mem_cons_of_mem _ hd')) n hn
    | sslFault => simp [readLoop] at hn
    | ioFault => simp [readLoop] at hn

/-- No outcome of the post-loop processing is the 413 output. -/
theorem processRequest_ne_out413 (fs : List Nat → Option (List Nat))
    (origin b : List Nat) : processRequest fs origin b ≠ out413 := by
  unfold processRequest
  cases parse_request (utf8Lossy b) with
  | malformedRequest =>
    intro h
    simp only [respondWith] at h
    exact absurd h (by decide)
  | methodNotAllowed =>
    intro h
    simp only [respondWith] at h
    exact absurd h (by decide)
  | targetMissing =>
    intro h
    simp only [respondWith] at h
    exact absurd h (by decide)
  | notFound =>
    intro h
    simp only [respondWith] at h
    exact absurd h (by decide)
  | charBoundaryPanic =>
    intro h
    simp only [respondWith] at h
    exact absurd h (by decide)
  | fileTarget rel =>
    intro h
    cases hfs : fs rel with
    | none =>
      simp only [respondWith, hfs] at h
      exact absurd h (by decide)
    | some data =>
      simp only [respondWith, hfs] at h
      have := congrArg WireOutput.flushed h
      simp [out413] at this

/-- Byte length of one character never vanishes, so a string has at least
as many bytes as characters. -/
theorem len_le_strByteLen (s : List Nat) : s.length ≤ strByteLen s := by
  induction s with
  | nil => simp [strByteLen]
  | cons c cs ih =>
    have h1 : 1 ≤ charUtf8Len c := by
      unfold charUtf8Len
      split_ifs <;> omega
    simp only [strByteLen, List.map_cons, List.sum_cons, List.length_cons]
    simp only [strByteLen] at ih
    omega

theorem ascii_status200_split :
    ascii "HTTP/1.1 200 OK\r\nAccess-Control-Allow-Origin: " =
      ascii "HTTP/1.1 200 OK" ++ crlf ++ ascii "Access-Control-Allow-Origin: " := by decide

theorem ascii_ctype_split :
    ascii "\r\nContent-type: " = crlf ++ ascii "Content-type: " := by decide

theorem ascii_clen_split :
    ascii "\r\nContent-Length: " = crlf ++ ascii "Content-Length: " := by decide

theorem ascii_blank_split : ascii "\r\n\r\n" = crlf ++ crlf := by decide

/-! ### Claims -/

/-- **C1 counterexample.**  A connection that sends a partial request and
then closes its write side (a zero-byte read before any terminator) is not
dropped silently: the handler writes the 405 response for the accumulated
bytes. -/
theorem C1_counterexample :
    (readLoop [] [ReadEvent.chunk (ascii "POST / HTTP/1.0\r\n")]).1 =
      LoopExit.stuck (ascii "POST / HTTP/1.0\r\n") ∧
    handle_client (fun _ => none) (ascii "*")
      [ReadEvent.chunk (ascii "POST / HTTP/1.0\r\n"), ReadEvent.chunk []] = some out405 ∧
    out405.written ≠ [] := by decide

/-- **C1 amended.**  A zero-byte read while the loop is mid-flight does not
drop the connection silently; the handler falls through and processes the
accumulated buffer exactly as it would a completed request (it stays silent
only when that processing panics). -/
theorem C1_amended_orderly_close_falls_through
    (fs : List Nat → Option (List Nat)) (origin : List Nat)
    (pre rest : List ReadEvent) (buf : List Nat)
    (hstuck : (readLoop [] pre).1 = LoopExit.stuck buf) :
    handle_client fs origin (pre ++ ReadEvent.chunk [] :: rest) =
      some (processRequest fs origin buf) := by
  unfold handle_client
  rw [readLoop_stuck_append pre [] buf (ReadEvent.chunk [] :: rest) hstuck]
  simp [readLoop]

theorem C1_witness :
    handle_client (fun _ => none) (ascii "*")
      ([ReadEvent.chunk (ascii "GET /x HTTP/1.0\r\n")] ++ ReadEvent.chunk [] :: []) =
      some (processRequest (fun _ => none) (ascii "*") (ascii "GET /x HTTP/1.0\r\n")) :=
  C1_amended_orderly_close_falls_through (fun _ => none) (ascii "*")
    [ReadEvent.chunk (ascii "GET /x HTTP/1.0\r\n")] [] (ascii "GET /x HTTP/1.0\r\n")
    (by decide)

/-- **C2 counterexample.**  Reads of 4095 then 4096 `A` bytes drive the
accumulator to 8191 bytes right after the second append, exceeding
`MAX_REQUEST_SIZE`. -/
theorem C2_counterexample :
    8191 ∈ (readLoop [] [ReadEvent.chunk (List.replicate 4095 65),
      ReadEvent.chunk (List.replicate 4096 65)]).2 ∧
    MAX_REQUEST_SIZE < 8191 := by
  have e1 : is_end_of_header ([] ++ List.replicate 4095 65) = false := by
    rw [List.nil_append]
    exact is_end_of_header_replicate_A 4095
  have e2 : is_end_of_header (([] ++ List.replicate 4095 65) ++ List.replicate 4096 65)
      = false := by
    rw [List.nil_append, ← List.replicate_add]
    exact is_end_of_header_replicate_A (4095 + 4096)
  have h0a : ¬ (List.replicate (4095 : Nat) 65).length = 0 := by
    rw [List.length_replicate]
    omega
  have h1a : ¬ is_end_of_header ([] ++ List.replicate 4095 65) = true := by
    rw [e1]
    decide
  have h2a : ¬ MAX_REQUEST_SIZE ≤ ([] ++ List.replicate 4095 65).length := by
    rw [List.nil_append, List.length_replicate]
    decide
  have h0b : ¬ (List.replicate (4096 : Nat) 65).length = 0 := by
    rw [List.length_replicate]
    omega
  have h1b : ¬ is_end_of_header (([] ++ List.replicate 4095 65) ++ List.replicate 4096 65)
      = true := by
    rw [e2]
    decide
  have h2b : MAX_REQUEST_SIZE ≤
      (([] ++ List.replicate 4095 65) ++ List.replicate 4096 65).length := by
    rw [List.nil_append, List.length_append, List.length_replicate, List.length_replicate]
    decide
  constructor
  · simp only [readLoop, if_neg h0a, if_neg h1a, if_neg h2a, if_neg h0b, if_neg h1b,
      if_pos h2b]
    rw [List.nil_append, List.length_append, List.length_replicate, List.length_replicate]
    decide
  · decide

/-- **C2 amended.**  The accumulator is below `MAX_REQUEST_SIZE` before
every read (after an append it can transiently reach up to
`2 * MAX_REQUEST_SIZE - 1`), and the moment an append makes it reach the
bound without containing the terminator, the handler writes exactly the 413
response and terminates the connection. -/
theorem C2_amended_cap_and_413 :
    (∀ (reads : List ReadEvent) (b : List Nat),
      (readLoop [] reads).1 = LoopExit.stuck b → b.length < MAX_REQUEST_SIZE) ∧
    (∀ (fs : List Nat → Option (List Nat)) (origin : List Nat)
      (pre rest : List ReadEvent) (buf data : List Nat),
      (readLoop [] pre).1 = LoopExit.stuck buf →
      data.length ≠ 0 →
      is_end_of_header (buf ++ data) = false →
      MAX_REQUEST_SIZE ≤ (buf ++ data).length →
      handle_client fs origin (pre ++ ReadEvent.chunk data :: rest) = some out413) := by
  constructor
  · intro reads b h
    exact readLoop_stuck_short reads [] (by simp [MAX_REQUEST_SIZE]) b h
  · intro fs origin pre rest buf data hstuck h0 h1 h2
    have h1' : ¬ is_end_of_header (buf ++ data) = true := by simp [h1]
    unfold handle_client
    rw [readLoop_stuck_append pre [] buf (ReadEvent.chunk data :: rest) hstuck]
    simp only [readLoop, if_neg h0, if_neg h1', if_pos h2]

theorem C2_witness :
    handle_client (fun _ => none) (ascii "*")
      ([] ++ ReadEvent.chunk (List.replicate 4096 65) :: []) = some out413 ∧
    ([] : List Nat).length < MAX_REQUEST_SIZE :=
  ⟨C2_amended_cap_and_413.2 (fun _ => none) (ascii "*") [] [] []
      (List.replicate 4096 65) rfl
      (by rw [List.length_replicate]; omega)
      (by rw [List.nil_append]; exact is_end_of_header_replicate_A 4096)
      (by rw [List.nil_append, List.length_replicate]; decide),
   C2_amended_cap_and_413.1 [] [] rfl⟩

/-- **C3.**  For every completed request buffer whose first line has no
whitespace-separated token, the parse signals MalformedRequest (the
`unwrap` on the absent first token aborts the handler) and nothing else:
no response bytes are written. -/
theorem C3_malformed_when_no_token (fs : List Nat → Option (List Nat))
    (origin buf line : List Nat)
    (hdone : is_end_of_header buf = true)
    (hline : firstLine (utf8Lossy buf) = some line)
    (htok : nextToken line = none) :
    parse_request (utf8Lossy buf) = ParseResult.malformedRequest ∧
    processRequest fs origin buf = outPanic := by
  have hp : parse_request (utf8Lossy buf) = ParseResult.malformedRequest := by
    simp only [parse_request, hline, htok]
  refine ⟨hp, ?_⟩
  unfold processRequest
  rw [hp]
  rfl

theorem C3_witness :
    parse_request (utf8Lossy (ascii " \r\n\r\n")) = ParseResult.malformedRequest ∧
    processRequest (fun _ => none) (ascii "*") (ascii " \r\n\r\n") = outPanic :=
  C3_malformed_when_no_token (fun _ => none) (ascii "*") (ascii " \r\n\r\n") (ascii " ")
    (by decide) (by decide) (by decide)

/-- **C4 counterexample.**  The request `GET\t/ HTTP/1.0\r\n\r\n` does not
start with the four bytes `GET ` yet its response is the 404 line, not 405:
the code keys on the first whitespace-separated token, not on a `GET ` byte
prefix of the request. -/
theorem C4_counterexample :
    (ascii "GET ").isPrefixOf (ascii "GET\t/ HTTP/1.0\r\n\r\n") = false ∧
    handle_client (fun _ => none) (ascii "*")
      [ReadEvent.chunk (ascii "GET\t/ HTTP/1.0\r\n\r\n")] = some out404 ∧
    firstLine out404.written = some (ascii "HTTP/1.1 404 NOT FOUND") ∧
    ascii "HTTP/1.1 404 NOT FOUND" ≠ ascii "HTTP/1.1 405 Method Not Allowed" := by
  decide

/-- **C4 amended.**  For every completed request whose first line's first
whitespace-separated token is not exactly `GET`, the response is exactly
the 405 status line. -/
theorem C4_amended_non_get_token (fs : List Nat → Option (List Nat))
    (origin buf line tok r : List Nat)
    (hdone : is_end_of_header buf = true)
    (hline : firstLine (utf8Lossy buf) = some line)
    (htok : nextToken line = some (tok, r))
    (hne : tok ≠ ascii "GET") :
    processRequest fs origin buf = out405 := by
  unfold processRequest
  simp only [parse_request, hline, htok]
  rw [if_pos hne]
  rfl

theorem C4_witness :
    processRequest (fun _ => none) (ascii "*") (ascii "POST / HTTP/1.0\r\n\r\n") = out405 :=
  C4_amended_non_get_token (fun _ => none) (ascii "*") (ascii "POST / HTTP/1.0\r\n\r\n")
    (ascii "POST / HTTP/1.0") (ascii "POST") (ascii " / HTTP/1.0")
    (by decide) (by decide) (by decide) (by decide)

/-- **C5 counterexample.**  The completed request `GET\r\n\r\n` has no
second token; the claim demands the 404 response, but the handler panics on
the `unwrap` and writes nothing at all. -/
theorem C5_counterexample :
    handle_client (fun _ => none) (ascii "*") [ReadEvent.chunk (ascii "GET\r\n\r\n")] =
      some outPanic ∧
    outPanic.written = [] ∧
    out404.written ≠ [] := by decide

/-- **C5 amended.**  For every completed GET request: if the second token
is present with byte length at most 1 the handler writes the 404 response;
if the second token is absent the handler panics and writes nothing. -/
theorem C5_amended_target_rules (fs : List Nat → Option (List Nat))
    (origin buf line r : List Nat)
    (hdone : is_end_of_header buf = true)
    (hline : firstLine (utf8Lossy buf) = some line)
    (htok : nextToken line = some (ascii "GET", r)) :
    (nextToken r = none → processRequest fs origin buf = outPanic) ∧
    (∀ path r2, nextToken r = some (path, r2) → strByteLen path ≤ 1 →
      processRequest fs origin buf = out404) := by
  constructor
  · intro hm
    unfold processRequest
    simp only [parse_request, hline, htok]
    rw [if_neg (fun hh : ascii "GET" ≠ ascii "GET" => hh rfl)]
    simp only [hm]
    rfl
  · intro path r2 hm hlen
    unfold processRequest
    simp only [parse_request, hline, htok]
    rw [if_neg (fun hh : ascii "GET" ≠ ascii "GET" => hh rfl)]
    simp only [hm]
    rw [if_pos hlen]
    rfl

theorem C5_witness :
    processRequest (fun _ => none) (ascii "*") (ascii "GET\r\n\r\n") = outPanic ∧
    processRequest (fun _ => none) (ascii "*") (ascii "GET / HTTP/1.0\r\n\r\n") = out404 :=
  ⟨(C5_amended_target_rules (fun _ => none) (ascii "*") (ascii "GET\r\n\r\n")
      (ascii "GET") (ascii "") (by decide) (by decide) (by decide)).1 (by decide),
   (C5_amended_target_rules (fun _ => none) (ascii "*") (ascii "GET / HTTP/1.0\r\n\r\n")
      (ascii "GET / HTTP/1.0") (ascii " / HTTP/1.0") (by decide) (by decide)
      (by decide)).2 (ascii "/") (ascii " HTTP/1.0") (by decide) (by decide)⟩

/-- **C6.**  A GET whose target starts with `/` and names a readable file
is answered with exactly the specified 200 response: status line, the
`Access-Control-Allow-Origin`, `Content-type` (`application/dash+xml` iff
the stripped path ends in `.mpd`, else `application/octet-stream`) and
decimal `Content-Length` headers each terminated by `\r\n`, a blank line,
then the raw file bytes, with the stream flushed. -/
theorem C6_ok_response (fs : List Nat → Option (List Nat))
    (origin buf line r path r2 data : List Nat)
    (hline : firstLine (utf8Lossy buf) = some line)
    (htok : nextToken line = some (ascii "GET", r))
    (htok2 : nextToken r = some (path, r2))
    (hslash : path.headD 0 = 47)
    (hlen : 2 ≤ path.length)
    (hfs : fs (path.drop 1) = some data) :
    processRequest fs origin buf =
      ⟨specResponse200 origin
        (if (ascii ".mpd").isSuffixOf (path.drop 1) then ascii "application/dash+xml"
         else ascii "application/octet-stream") data, true, false⟩ := by
  have hbl : ¬ strByteLen path ≤ 1 := by
    have := len_le_strByteLen path
    omega
  have hb1 : charUtf8Len (path.headD 0) = 1 := by
    rw [hslash]
    decide
  unfold processRequest
  simp only [parse_request, hline, htok, htok2]
  rw [if_neg (fun hh : ascii "GET" ≠ ascii "GET" => hh rfl), if_neg hbl, if_pos hb1]
  simp only [respondWith, hfs]
  congr 1
  rw [specResponse200, ascii_status200_split, ascii_ctype_split, ascii_clen_split,
    ascii_blank_split]
  simp [List.append_assoc]

theorem C6_witness :
    processRequest
      (fun p => if p = ascii "a.mpd" then some [0, 1, 2] else none) (ascii "*")
      (ascii "GET /a.mpd HTTP/1.0\r\n\r\n") =
      ⟨specResponse200 (ascii "*")
        (if (ascii ".mpd").isSuffixOf ((ascii "/a.mpd").drop 1) then
          ascii "application/dash+xml"
         else ascii "application/octet-stream") [0, 1, 2], true, false⟩ :=
  C6_ok_response (fun p => if p = ascii "a.mpd" then some [0, 1, 2] else none) (ascii "*")
    (ascii "GET /a.mpd HTTP/1.0\r\n\r\n") (ascii "GET /a.mpd HTTP/1.0")
    (ascii " /a.mpd HTTP/1.0") (ascii "/a.mpd") (ascii " HTTP/1.0") [0, 1, 2]
    (by decide) (by decide) (by decide) (by decide) (by decide) (by decide)

/-- **C7.**  The header-boundary detector returns true iff the buffer
contains the four bytes `\r\n\r\n` as a contiguous subsequence; in
particular every input shorter than four bytes yields false. -/
theorem C7_terminator_detector (b : List Nat) :
    (is_end_of_header b = true ↔ crlfcrlf <:+: b) ∧
    (b.length < 4 → is_end_of_header b = false) := by
  refine ⟨is_end_of_header_contains_iff b, ?_⟩
  intro h
  unfold is_end_of_header
  rw [if_pos h]

theorem C7_witness :
    is_end_of_header (ascii "ab") = false ∧
    is_end_of_header (ascii "xy\r\n\r\n") = true :=
  ⟨(C7_terminator_detector (ascii "ab")).2 (by decide),
   (C7_terminator_detector (ascii "xy\r\n\r\n")).1.mpr ⟨ascii "xy", [], by decide⟩⟩

/-- **C8.**  When one append makes the accumulator contain the terminator
and reach the size cap at the same time, the terminator check is evaluated
first: the request falls through to parsing, and the 413 response is never
written. -/
theorem C8_terminator_check_first
    (fs : List Nat → Option (List Nat)) (origin : List Nat)
    (pre rest : List ReadEvent) (buf data : List Nat)
    (hstuck : (readLoop [] pre).1 = LoopExit.stuck buf)
    (h0 : data.length ≠ 0)
    (hterm : is_end_of_header (buf ++ data) = true)
    (hsize : MAX_REQUEST_SIZE ≤ (buf ++ data).length) :
    handle_client fs origin (pre ++ ReadEvent.chunk data :: rest) =
      some (processRequest fs origin (buf ++ data)) ∧
    processRequest fs origin (buf ++ data) ≠ out413 := by
  refine ⟨?_, processRequest_ne_out413 fs origin (buf ++ data)⟩
  unfold handle_client
  rw [readLoop_stuck_append pre [] buf (ReadEvent.chunk data :: rest) hstuck]
  simp only [readLoop, if_neg h0, if_pos hterm]

theorem C8_witness :
    handle_client (fun _ => none) (ascii "*")
      ([] ++ ReadEvent.chunk (List.replicate 4092 65 ++ crlfcrlf) :: []) =
      some (processRequest (fun _ => none) (ascii "*")
        ([] ++ (List.replicate 4092 65 ++ crlfcrlf))) ∧
    processRequest (fun _ => none) (ascii "*")
      ([] ++ (List.replicate 4092 65 ++ crlfcrlf)) ≠ out413 :=
  C8_terminator_check_first (fun _ => none) (ascii "*") [] [] []
    (List.replicate 4092 65 ++ crlfcrlf) rfl
    (by rw [List.length_append, List.length_replicate]; decide)
    (by rw [List.nil_append]
        exact is_end_of_header_of_ends_with _ ⟨List.replicate 4092 65, rfl⟩)
    (by rw [List.nil_append, List.length_append, List.length_replicate]; decide)

/-- **C9.**  A request whose file read fails is answered with exactly the
404 status line: the wire never sees any byte of a 200 status line, header
or body for such a request. -/
theorem C9_failed_read_pure_404
    (fs : List Nat → Option (List Nat)) (origin buf line r path r2 : List Nat)
    (hline : firstLine (utf8Lossy buf) = some line)
    (htok : nextToken line = some (ascii "GET", r))
    (htok2 : nextToken r = some (path, r2))
    (hlen : ¬ strByteLen path ≤ 1)
    (hb : charUtf8Len (path.headD 0) = 1)
    (hfs : fs (path.drop 1) = none) :
    processRequest fs origin buf = out404 ∧
    (processRequest fs origin buf).written = ascii "HTTP/1.1 404 NOT FOUND\r\n\r\n" := by
  have h : processRequest fs origin buf = out404 := by
    unfold processRequest
    simp only [parse_request, hline, htok, htok2]
    rw [if_neg (fun hh : ascii "GET" ≠ ascii "GET" => hh rfl), if_neg hlen, if_pos hb]
    simp only [respondWith, hfs]
  exact ⟨h, by rw [h]; rfl⟩

theorem C9_witness :
    processRequest (fun _ => none) (ascii "*") (ascii "GET /nope HTTP/1.0\r\n\r\n") = out404 ∧
    (processRequest (fun _ => none) (ascii "*")
      (ascii "GET /nope HTTP/1.0\r\n\r\n")).written =
      ascii "HTTP/1.1 404 NOT FOUND\r\n\r\n" :=
  C9_failed_read_pure_404 (fun _ => none) (ascii "*") (ascii "GET /nope HTTP/1.0\r\n\r\n")
    (ascii "GET /nope HTTP/1.0") (ascii " /nope HTTP/1.0") (ascii "/nope")
    (ascii " HTTP/1.0") (by decide) (by decide) (by decide) (by decide) (by decide) rfl

/-- **C10.**  With every read bounded by the scratch buffer size, each
accumulator length observed right after an append is below
`2 * MAX_REQUEST_SIZE`, and the accumulator is below `MAX_REQUEST_SIZE`
before each read. -/
theorem C10_accumulator_bound (reads : List ReadEvent)
    (hc : ∀ d, ReadEvent.chunk d ∈ reads → d.length ≤ MAX_REQUEST_SIZE) :
    (∀ n ∈ (readLoop [] reads).2, n < 2 * MAX_REQUEST_SIZE) ∧
    (∀ b, (readLoop [] reads).1 = LoopExit.stuck b → b.length < MAX_REQUEST_SIZE) := by
  refine ⟨readLoop_trace_bound reads [] (by simp [MAX_REQUEST_SIZE]) hc, ?_⟩
  intro b hb
  exact readLoop_stuck_short reads [] (by simp [MAX_REQUEST_SIZE]) b hb

theorem C10_witness : 19 < 2 * MAX_REQUEST_SIZE :=
  (C10_accumulator_bound [ReadEvent.chunk (ascii "GET /a HTTP/1.0\r\n\r\n")]
    (by intro d hd
        have h' := List.mem_singleton.mp hd
        injection h' with h''
        subst h''
        decide)).1 19 (by decide)
